/-
Verification of the NSO-GC-Controller-PC input pipeline against its
natural-language specification.

Shallow embedding of the relevant Python modules:
  * `src/gc_controller/dsu_server.py`       — DSU packet builders, CRC
    finalization, the `DSUGamepad` state machine and the process-wide
    refcounted server singleton,
  * `src/gc_controller/settings_manager.py` — versioned settings
    load/migrate/save,
  * `src/gc_controller/connection_manager.py` — USB+HID connect sequence,
  * `src/gc_controller/controller_slot.py`  — BLE address normalization,
  * `tools/ble_bumble_connect.py`           — SW2 BLE command framing.

Python byte strings are modelled as `List Nat` with entries understood
modulo 256, dicts as insertion-ordered association lists, machine
integers as `Nat`/`Int` with explicit `% 2 ^ w` where overflow matters.
-/
import Mathlib

namespace GC

/-! ## controller_slot.py: normalize_ble_address

Python strings are modelled as `List Char`; the optional argument is an
`Option`.  `re.sub(r'/[PR]$', '', addr)` removes a single trailing `/P`
or `/R`, and the `if not addr` guard returns `None` and `""` unchanged. -/

/-- `re.sub(r'/[PR]$', '', s)`: drop a single trailing "/P" or "/R"
(the `$`-anchored pattern can match at most once). -/
def stripPRSuffix (s : List Char) : List Char :=
  match s.reverse with
  | c :: d :: rest =>
      if d = '/' ∧ (c = 'P' ∨ c = 'R') then rest.reverse else s
  | _ => s

/-- `controller_slot.normalize_ble_address`. -/
def normalize_ble_address (addr : Option (List Char)) : Option (List Char) :=
  match addr with
  | none => none
  | some s => if s = [] then some s else some (stripPRSuffix s)

/-- Does the string end in "/P" or "/R"? -/
def endsInPR (s : List Char) : Bool :=
  match s.reverse with
  | c :: d :: _ => decide (d = '/' ∧ (c = 'P' ∨ c = 'R'))
  | _ => false

example : normalize_ble_address (some ('A' :: '/' :: 'P' :: '/' :: 'P' :: [])) =
    some ('A' :: '/' :: 'P' :: []) := by decide

example : normalize_ble_address (some ('A' :: 'B' :: [])) =
    some ('A' :: 'B' :: []) := by decide

/-! ## dsu_server.py: refcounted server singleton -/

/-- The module-level globals `_server_instance` (modelled by whether an
instance exists) and `_server_refcount`. -/
structure ServerGlobals where
  instanceAlive : Bool
  refcount : Int
deriving DecidableEq

/-- Initial module state: no instance, refcount 0. -/
def initialGlobals : ServerGlobals := ⟨false, 0⟩

/-- `dsu_server._acquire_server`: create and start the server if absent,
then increment the refcount. -/
def acquireServer (g : ServerGlobals) : ServerGlobals :=
  let g1 := if g.instanceAlive then g else { g with instanceAlive := true }
  { g1 with refcount := g1.refcount + 1 }

/-- `dsu_server._release_server`: decrement the refcount; if it is now
`≤ 0`, clamp it to 0 and stop and discard the instance. -/
def releaseServer (g : ServerGlobals) : ServerGlobals :=
  let rc := g.refcount - 1
  if rc ≤ 0 then { instanceAlive := false, refcount := 0 }
  else { g with refcount := rc }

/-- One serialized call on the server lock. -/
inductive ServerOp where
  | acquire
  | release
deriving DecidableEq

def serverStep (g : ServerGlobals) : ServerOp → ServerGlobals
  | .acquire => acquireServer g
  | .release => releaseServer g

def runServerOps (ops : List ServerOp) : ServerGlobals :=
  ops.foldl serverStep initialGlobals

/-- The singleton invariant: refcount non-negative, instance present iff
refcount positive. -/
def serverInv (g : ServerGlobals) : Prop :=
  0 ≤ g.refcount ∧ (g.instanceAlive = true ↔ 0 < g.refcount)

theorem serverStep_preserves_inv (g : ServerGlobals) (op : ServerOp)
    (h : serverInv g) : serverInv (serverStep g op) := by
  obtain ⟨ia, rc⟩ := g
  obtain ⟨h0, hiff⟩ := h
  cases op with
  | acquire =>
    cases ia with
    | false =>
      simp [serverStep, acquireServer, serverInv] at *
      omega
    | true =>
      simp [serverStep, acquireServer, serverInv] at *
      omega
  | release =>
    simp only [serverStep, releaseServer]
    split
    · exact ⟨le_refl 0, by simp [serverInv]⟩
    · rename_i hrc
      simp only [serverInv] at *
      cases ia with
      | false =>
        simp at hiff ⊢
        omega
      | true =>
        simp at hiff ⊢
        omega

/-! ## connection_manager.py: USB + HID connect sequence -/

/-- Environment of one connect attempt: which of the fallible calls
raise.  The first seven flags model `usb.core.USBError` being raised by
the corresponding call inside `initialize_via_usb`; `hidOpenFails`
models `hid.device.open` raising inside `init_hid_device`. -/
structure UsbEnv where
  deviceFound : Bool
  detachFails : Bool
  setConfigFails : Bool
  claimFails : Bool
  initWriteFails : Bool
  ledWriteFails : Bool
  releaseFails : Bool
  hidOpenFails : Bool
deriving DecidableEq

/-- `ConnectionManager.initialize_via_usb`.  Kernel-driver detach,
`set_configuration`, `claim_interface` and `release_interface` are each
wrapped in a local `try/except` that swallows the error (so
`detachFails`, `setConfigFails`, `claimFails`, `releaseFails` do not
alter control flow); the two `dev.write(0x02, …)` calls are *not*
wrapped, so a raising write escapes to the outer `except` which returns
`False`. -/
def initialize_via_usb (e : UsbEnv) : Bool :=
  if e.deviceFound = false then false
  else
    -- detach_kernel_driver: try/except pass (e.detachFails swallowed)
    -- set_configuration:    try/except pass (e.setConfigFails swallowed)
    -- claim_interface:      try/except pass (e.claimFails swallowed)
    if e.initWriteFails then false        -- raise → outer except → False
    else if e.ledWriteFails then false    -- raise → outer except → False
    else
      -- release_interface:  try/except pass (e.releaseFails swallowed)
      true

/-- `ConnectionManager.init_hid_device`. -/
def init_hid_device (e : UsbEnv) : Bool :=
  if e.hidOpenFails then false else true

/-- `ConnectionManager.connect`: USB init, then HID open. -/
def connect (e : UsbEnv) : Bool :=
  if initialize_via_usb e = false then false
  else init_hid_device e

/-- The HID-open step is reached iff USB initialization returned True. -/
def hidOpenAttempted (e : UsbEnv) : Bool := initialize_via_usb e

/-! ## dsu_server.py: DSU slot state and the DSUGamepad surface -/

/-- Keys of the per-slot state dict (`DSUServer._make_empty_state`). -/
inductive SKey where
  | buttons1 | buttons2 | ps_button | touch_button
  | lx | ly | rx | ry
  | dpad_left | dpad_down | dpad_right | dpad_up
  | square | cross | circle | triangle
  | r1 | l1 | r2 | l2
  | l_trigger | r_trigger
deriving DecidableEq

/-- A slot state dict: every key holds a (non-negative) Python int. -/
def DSUState := SKey → Nat

/-- `DSUServer._make_empty_state`: neutral sticks at 128, all else 0. -/
def makeEmptyState : DSUState := fun k =>
  match k with
  | .lx | .ly | .rx | .ry => 128
  | _ => 0

/-- `state[key] = v`. -/
def updState (s : DSUState) (k : SKey) (v : Nat) : DSUState :=
  fun k' => if k' = k then v else s k'

/-- The axis-byte conversion used by `DSUGamepad.left_joystick` /
`right_joystick`: `max(0, min(255, (v + 32767) * 255 // 65534))`
(Python floor division). -/
def dsuAxisByte (v : Int) : Nat :=
  (max 0 (min 255 (Int.fdiv ((v + 32767) * 255) 65534))).toNat

/-- `DSUGamepad.left_joystick` (the Y axis is negated before
conversion, matching the source's axis inversion). -/
def left_joystick (x y : Int) (s : DSUState) : DSUState :=
  let s1 := updState s .lx (dsuAxisByte x)
  updState s1 .ly (dsuAxisByte (-y))

/-- `DSUGamepad.right_joystick`. -/
def right_joystick (x y : Int) (s : DSUState) : DSUState :=
  let s1 := updState s .rx (dsuAxisByte x)
  updState s1 .ry (dsuAxisByte (-y))

example : dsuAxisByte 0 = 127 := by decide
example : dsuAxisByte 32767 = 255 := by decide
example : dsuAxisByte (-32767) = 0 := by decide

/-! ## dsu_server.py: packet construction and CRC32

Packets are byte lists.  `writeAt` models `struct.pack_into` / slice
assignment into a `bytearray`; `bytearray` cells hold byte values and
every value written by the source is in range 0–255, so stores carry an
explicit `% 256` / `&&& 255` at byte precision. -/

/-- Write the bytes `bs` into `l` starting at offset `i`. -/
def writeAt (l : List Nat) (i : Nat) (bs : List Nat) : List Nat :=
  match bs with
  | [] => l
  | b :: t => writeAt (l.set i b) (i + 1) t

/-- `struct.pack('<H', v)`. -/
def le16 (v : Nat) : List Nat := [v % 256, v / 256 % 256]

/-- `struct.pack('<I', v)`. -/
def le32 (v : Nat) : List Nat :=
  [v % 256, v / 256 % 256, v / 65536 % 256, v / 16777216 % 256]

/-- `struct.pack('<Q', v)`. -/
def le64 (v : Nat) : List Nat :=
  [v % 256, v / 256 % 256, v / 65536 % 256, v / 16777216 % 256,
   v / 4294967296 % 256, v / 1099511627776 % 256,
   v / 281474976710656 % 256, v / 72057594037927936 % 256]

/-- Read back the little-endian u32 stored at offset `i`. -/
def readLE32 (l : List Nat) (i : Nat) : Nat :=
  l.getD i 0 + 256 * l.getD (i + 1) 0 + 65536 * l.getD (i + 2) 0 +
    16777216 * l.getD (i + 3) 0

/-- One shift-and-conditionally-xor step of the reflected CRC-32
(IEEE 802.3 polynomial, reflected form 0xEDB88320). -/
def crcStep (c : Nat) : Nat :=
  if c % 2 = 1 then Nat.xor (c / 2) 0xEDB88320 else c / 2

/-- Fold one input byte into the running CRC. -/
def crcByte (c b : Nat) : Nat := crcStep^[8] (Nat.xor c (b % 256))

/-- `zlib.crc32(bs) & 0xFFFFFFFF`. -/
def crc32 (bs : List Nat) : Nat :=
  Nat.xor (bs.foldl crcByte 0xFFFFFFFF) 0xFFFFFFFF

example : crc32 [] = 0 := by decide

/- Standard CRC-32 check value: crc32(b"123456789") = 0xCBF43926. -/
set_option maxRecDepth 4000 in
example : crc32 [0x31, 0x32, 0x33, 0x34, 0x35, 0x36, 0x37, 0x38, 0x39]
    = 0xCBF43926 := by decide

/-- `packet[8:12] = b'\x00\x00\x00\x00'` (the first half of
`_finalize_crc`). -/
def zeroCrcField (p : List Nat) : List Nat := writeAt p 8 [0, 0, 0, 0]

/-- `dsu_server._finalize_crc`: zero the CRC field, CRC32 the whole
packet, store the result little-endian at bytes 8–11. -/
def finalizeCrc (p : List Nat) : List Nat :=
  let z := zeroCrcField p
  writeAt z 8 (le32 (crc32 z))

/-- The checksum property claimed of every outbound packet: the LE u32
at bytes 8–11 equals the CRC32 of the packet with bytes 8–11 zeroed. -/
def dsuCrcValid (p : List Nat) : Prop :=
  readLE32 p 8 = crc32 (zeroCrcField p)

@[simp] lemma writeAt_length (bs : List Nat) :
    ∀ (l : List Nat) (i : Nat), (writeAt l i bs).length = l.length := by
  induction bs with
  | nil => intro l i; rfl
  | cons b t ih => intro l i; simp [writeAt, ih]

lemma crcStep_lt (c : Nat) (h : c < 2 ^ 32) : crcStep c < 2 ^ 32 := by
  unfold crcStep
  split
  · exact Nat.xor_lt_two_pow (by omega) (by norm_num)
  · omega

lemma crcStep_iter_lt (n c : Nat) (h : c < 2 ^ 32) :
    crcStep^[n] c < 2 ^ 32 := by
  induction n generalizing c with
  | zero => exact h
  | succ m ih =>
    rw [Function.iterate_succ_apply]
    exact ih _ (crcStep_lt c h)

lemma crcByte_lt (c b : Nat) (h : c < 2 ^ 32) : crcByte c b < 2 ^ 32 :=
  crcStep_iter_lt 8 _ (Nat.xor_lt_two_pow h (by
    have : b % 256 < 256 := Nat.mod_lt b (by norm_num)
    omega))

lemma crc32_lt (bs : List Nat) : crc32 bs < 2 ^ 32 := by
  unfold crc32
  have hfold : ∀ (l : List Nat) (acc : Nat), acc < 2 ^ 32 →
      l.foldl crcByte acc < 2 ^ 32 := by
    intro l
    induction l with
    | nil => intro acc h; exact h
    | cons x t ih => intro acc h; exact ih _ (crcByte_lt acc x h)
  exact Nat.xor_lt_two_pow (hfold bs 0xFFFFFFFF (by norm_num)) (by norm_num)

lemma set_writeAt_comm (bs : List Nat) :
    ∀ (l : List Nat) (i j v : Nat), j < i →
      (writeAt l i bs).set j v = writeAt (l.set j v) i bs := by
  induction bs with
  | nil => intro l i j v _; rfl
  | cons b t ih =>
    intro l i j v hj
    simp only [writeAt]
    rw [ih (l.set i b) (i + 1) j v (by omega),
      List.set_comm b v l (show i ≠ j by omega)]

lemma writeAt_writeAt_same (bs2 : List Nat) :
    ∀ (bs1 l : List Nat) (i : Nat), bs1.length = bs2.length →
      writeAt (writeAt l i bs1) i bs2 = writeAt l i bs2 := by
  induction bs2 with
  | nil =>
    intro bs1 l i hlen
    cases bs1 with
    | nil => rfl
    | cons a t => simp at hlen
  | cons b t2 ih =>
    intro bs1 l i hlen
    cases bs1 with
    | nil => simp at hlen
    | cons a t1 =>
      simp only [writeAt]
      rw [set_writeAt_comm t1 (l.set i a) (i + 1) i b (by omega),
        List.set_set, ih t1 (l.set i b) (i + 1) (by simpa using hlen)]

lemma getD_writeAt_lt (bs : List Nat) :
    ∀ (l : List Nat) (i j d : Nat), j < i →
      (writeAt l i bs).getD j d = l.getD j d := by
  induction bs with
  | nil => intro l i j d _; rfl
  | cons b t ih =>
    intro l i j d hj
    simp only [writeAt]
    rw [ih (l.set i b) (i + 1) j d (by omega)]
    simp [List.getD_eq_getElem?_getD, List.getElem?_set_ne (by omega : i ≠ j)]

lemma getD_writeAt_add (bs : List Nat) :
    ∀ (l : List Nat) (i k d : Nat), i + k < l.length → k < bs.length →
      (writeAt l i bs).getD (i + k) d = bs.getD k d := by
  induction bs with
  | nil => intro l i k d _ hk; simp at hk
  | cons b t ih =>
    intro l i k d hik hk
    cases k with
    | zero =>
      simp only [writeAt, Nat.add_zero]
      rw [getD_writeAt_lt t (l.set i b) (i + 1) i d (by omega)]
      simp [List.getD_eq_getElem?_getD,
        List.getElem?_set_self (by simpa using hik)]
    | succ m =>
      simp only [writeAt]
      have h1 : i + (m + 1) = (i + 1) + m := by omega
      rw [h1, ih (l.set i b) (i + 1) m d (by simpa using (by omega : i + 1 + m < l.length)) (by simpa using hk)]
      rfl

/-- Any packet of length ≥ 12 finalized by `_finalize_crc` carries a
valid checksum. -/
theorem finalize_crc_valid (p : List Nat) (h : 12 ≤ p.length) :
    dsuCrcValid (finalizeCrc p) := by
  have hzlen : (zeroCrcField p).length = p.length := writeAt_length _ _ _
  set z := zeroCrcField p with hz
  set c := crc32 z with hc
  have hclt : c < 2 ^ 32 := crc32_lt _
  have hfin : finalizeCrc p = writeAt z 8 (le32 c) := rfl
  unfold dsuCrcValid
  rw [hfin]
  have hzz : zeroCrcField (writeAt z 8 (le32 c)) = z := by
    unfold zeroCrcField
    rw [writeAt_writeAt_same [0, 0, 0, 0] (le32 c) z 8 rfl, hz]
    unfold zeroCrcField
    exact writeAt_writeAt_same [0, 0, 0, 0] [0, 0, 0, 0] p 8 rfl
  rw [hzz, ← hc]
  have e0 := getD_writeAt_add (le32 c) z 8 0 0 (by omega) (by norm_num [le32])
  have e1 := getD_writeAt_add (le32 c) z 8 1 0 (by omega) (by norm_num [le32])
  have e2 := getD_writeAt_add (le32 c) z 8 2 0 (by omega) (by norm_num [le32])
  have e3 := getD_writeAt_add (le32 c) z 8 3 0 (by omega) (by norm_num [le32])
  simp only [Nat.add_zero] at e0
  unfold readLE32
  rw [e0, e1, e2, e3]
  simp only [le32, List.getD_cons_zero, List.getD_cons_succ]
  omega

set_option linter.unusedVariables false in
/-- `dsu_server._build_header`; as in the source, `msgType` is accepted
but never written (the header stores magic, version, payload length,
zeroed CRC and server id). -/
def buildHeader (msgType payloadLen serverId : Nat) : List Nat :=
  let buf := List.replicate 16 0
  let buf := writeAt buf 0 [0x44, 0x53, 0x55, 0x53]
  let buf := writeAt buf 4 (le16 1001)
  let buf := writeAt buf 6 (le16 payloadLen)
  writeAt buf 12 (le32 serverId)

/-- `dsu_server._build_version_response`. -/
def buildVersionResponse (serverId : Nat) : List Nat :=
  let payload := le32 0x00100000 ++ le16 1001
  let header := buildHeader 0x00100000 payload.length serverId
  finalizeCrc (header ++ payload)

/-- `dsu_server._build_port_info`. -/
def buildPortInfo (serverId slot : Nat) (connected : Bool) : List Nat :=
  let payload := List.replicate 16 0
  let payload := writeAt payload 0 (le32 0x00100001)
  let payload := (payload.set 4 (slot % 256)).set 5
    (if connected then 0x02 else 0x00)
  let payload := (payload.set 6 2).set 7 1
  let payload := (payload.set 13 (slot % 256)).set 14 0x05
  let payload := payload.set 15 0
  let header := buildHeader 0x00100001 payload.length serverId
  finalizeCrc (header ++ payload)

/-- `DSUServer._build_data_packet` for one slot: 84-byte payload
(message type, shared controller info, packet counter, buttons, sticks,
pressures, triggers, motion timestamp) behind a 16-byte header, then
CRC-finalized. -/
def buildDataPacket (serverId slot : Nat) (connected : Bool)
    (counter : Nat) (state : DSUState) (nowMicros : Nat) : List Nat :=
  let payload := List.replicate 84 0
  let payload := writeAt payload 0 (le32 0x00100002)
  let payload := (payload.set 4 (slot % 256)).set 5
    (if connected then 0x02 else 0x00)
  let payload := (payload.set 6 2).set 7 1
  let payload := (payload.set 13 (slot % 256)).set 14 0x05
  let payload := payload.set 15 (if connected then 0x01 else 0x00)
  let payload := writeAt payload 16 (le32 counter)
  let payload := (payload.set 20 (state .buttons1 % 256)).set 21
    (state .buttons2 % 256)
  let payload := (payload.set 22 (state .ps_button % 256)).set 23
    (state .touch_button % 256)
  let payload := (payload.set 24 (Nat.land (state .lx) 0xFF)).set 25
    (Nat.land (state .ly) 0xFF)
  let payload := (payload.set 26 (Nat.land (state .rx) 0xFF)).set 27
    (Nat.land (state .ry) 0xFF)
  let payload := (payload.set 28 (state .dpad_left % 256)).set 29
    (state .dpad_down % 256)
  let payload := (payload.set 30 (state .dpad_right % 256)).set 31
    (state .dpad_up % 256)
  let payload := (payload.set 32 (state .square % 256)).set 33
    (state .cross % 256)
  let payload := (payload.set 34 (state .circle % 256)).set 35
    (state .triangle % 256)
  let payload := (payload.set 36 (state .r1 % 256)).set 37
    (state .l1 % 256)
  let payload := (payload.set 38 (Nat.land (state .r_trigger) 0xFF)).set 39
    (Nat.land (state .l_trigger) 0xFF)
  let payload := writeAt payload 52 (le64 nowMicros)
  let header := buildHeader 0x00100002 payload.length serverId
  finalizeCrc (header ++ payload)

/-- C1: every outbound DSU packet — version response, port info and pad
data — carries a valid checksum: recomputing CRC32 over the packet with
bytes 8–11 zeroed yields exactly the little-endian u32 stored at bytes
8–11. -/
theorem dsu_packets_crc_valid :
    (∀ serverId, dsuCrcValid (buildVersionResponse serverId)) ∧
    (∀ serverId slot connected,
      dsuCrcValid (buildPortInfo serverId slot connected)) ∧
    (∀ serverId slot connected counter state nowMicros,
      dsuCrcValid
        (buildDataPacket serverId slot connected counter state
          nowMicros)) := by
  refine ⟨?_, ?_, ?_⟩
  · intro sid
    apply finalize_crc_valid
    simp [buildHeader, le16, le32]
  · intro sid slot conn
    apply finalize_crc_valid
    simp [buildHeader, le16, le32]
  · intro sid slot conn cnt st now
    apply finalize_crc_valid
    simp [buildHeader, le16, le32, le64]

/-! ## tools/ble_bumble_connect.py: SW2 BLE command framing

All builders return `bytes`; byte cells carry an explicit `% 256`. -/

/-- `build_spi_read(addr_bytes, size)`. -/
def build_spi_read (a0 a1 a2 a3 size : Nat) : List Nat :=
  [0x02, 0x91, 0x01, 0x04,
   0x00, 0x08, 0x00, 0x00,
   size % 256, 0x7E, 0x00, 0x00,
   a0 % 256, a1 % 256, a2 % 256, a3 % 256]

/-- `build_led_cmd(led_mask)`. -/
def build_led_cmd (ledMask : Nat) : List Nat :=
  [0x09, 0x91, 0x01, 0x07,
   0x00, 0x08, 0x00, 0x00,
   ledMask % 256, 0x00, 0x00, 0x00, 0x00, 0x00, 0x00, 0x00]

/-- `build_feature_configure(flags)`. -/
def build_feature_configure (flags : Nat) : List Nat :=
  [0x0C, 0x91, 0x01, 0x02,
   0x00, 0x04, 0x00, 0x00,
   flags % 256, 0x00, 0x00, 0x00]

/-- `build_feature_enable(flags)`. -/
def build_feature_enable (flags : Nat) : List Nat :=
  [0x0C, 0x91, 0x01, 0x04,
   0x00, 0x04, 0x00, 0x00,
   flags % 256, 0x00, 0x00, 0x00]

/-- `build_pair_step1(local_addr_bytes)`: the six host address bytes,
then the same address with its last byte decremented mod 256. -/
def build_pair_step1 (b0 b1 b2 b3 b4 b5 : Nat) : List Nat :=
  [0x15, 0x91, 0x01, 0x01,
   0x00, 0x0E, 0x00, 0x00, 0x00, 0x02,
   b0 % 256, b1 % 256, b2 % 256, b3 % 256, b4 % 256, b5 % 256,
   b0 % 256, b1 % 256, b2 % 256, b3 % 256, b4 % 256,
   (b5 % 256 + 255) % 256]

/-- `PAIR_STEP2` (fixed 17-byte-payload challenge packet). -/
def PAIR_STEP2 : List Nat :=
  [0x15, 0x91, 0x01, 0x04,
   0x00, 0x11, 0x00, 0x00, 0x00,
   0xEA, 0xBD, 0x47, 0x13, 0x89, 0x35, 0x42,
   0xC6, 0x79, 0xEE, 0x07, 0xF2, 0x53, 0x2C, 0x6C, 0x31]

/-- `PAIR_STEP3` (fixed 17-byte-payload challenge packet). -/
def PAIR_STEP3 : List Nat :=
  [0x15, 0x91, 0x01, 0x02,
   0x00, 0x11, 0x00, 0x00, 0x00,
   0x40, 0xB0, 0x8A, 0x5F, 0xCD, 0x1F, 0x9B,
   0x41, 0x12, 0x5C, 0xAC, 0xC6, 0x3F, 0x38, 0xA0, 0x73]

/-- `PAIR_STEP4` (finalize token). -/
def PAIR_STEP4 : List Nat :=
  [0x15, 0x91, 0x01, 0x03,
   0x00, 0x01, 0x00, 0x00, 0x00]

/-- SW2 framing predicate: the packet has the eight-byte prefix
`[cmd, 0x91, 0x01, subcmd, 0x00, len, 0x00, 0x00]` followed by exactly
`n` payload bytes. -/
def sw2Framed (pkt : List Nat) (n : Nat) : Prop :=
  8 ≤ pkt.length ∧
  pkt.getD 1 0 = 0x91 ∧ pkt.getD 2 0 = 0x01 ∧ pkt.getD 4 0 = 0x00 ∧
  pkt.getD 6 0 = 0x00 ∧ pkt.getD 7 0 = 0x00 ∧
  (pkt.drop 8).length = n

instance (pkt : List Nat) (n : Nat) : Decidable (sw2Framed pkt n) := by
  unfold sw2Framed
  infer_instance

/-! ## dsu_server.py: button actions of the DSUGamepad surface -/

/-- Modelled from the spec: `virtual_gamepad.GamepadButton`
(virtual_gamepad.py is not among the provided sources).  The fifteen
members used by `_BUTTON_ACTIONS` in dsu_server.py are certain; per
§4.3 of the spec the wireless controller also carries extended buttons
(ZL, Home, Capture, Chat, GR, GL), represented here by `CAPTURE` and
`CHAT`, which have no entry in the DSU action map. -/
inductive GamepadButton where
  | A | B | X | Y
  | BACK | START | GUIDE
  | LEFT_SHOULDER | RIGHT_SHOULDER
  | LEFT_THUMB | RIGHT_THUMB
  | DPAD_UP | DPAD_DOWN | DPAD_LEFT | DPAD_RIGHT
  | CAPTURE | CHAT
deriving DecidableEq

/-- `dsu_server._BUTTON_ACTIONS`:
button → list of (state key, bit value, optional pressure key);
`dict.get` yields `none` for unmapped buttons. -/
def BUTTON_ACTIONS : GamepadButton → Option (List (SKey × Nat × Option SKey))
  | .BACK => some [(.buttons1, 1 <<< 0, none)]
  | .START => some [(.buttons1, 1 <<< 3, none)]
  | .DPAD_UP => some [(.buttons1, 1 <<< 4, some .dpad_up)]
  | .DPAD_RIGHT => some [(.buttons1, 1 <<< 5, some .dpad_right)]
  | .DPAD_DOWN => some [(.buttons1, 1 <<< 6, some .dpad_down)]
  | .DPAD_LEFT => some [(.buttons1, 1 <<< 7, some .dpad_left)]
  | .LEFT_SHOULDER => some [(.buttons2, 1 <<< 2, some .l1)]
  | .RIGHT_SHOULDER => some [(.buttons2, 1 <<< 3, some .r1)]
  | .Y => some [(.buttons2, 1 <<< 4, some .triangle)]
  | .B => some [(.buttons2, 1 <<< 5, some .circle)]
  | .A => some [(.buttons2, 1 <<< 6, some .cross)]
  | .X => some [(.buttons2, 1 <<< 7, some .square)]
  | .GUIDE => some [(.ps_button, 1 <<< 0, none)]
  | .LEFT_THUMB => some [(.buttons1, 1 <<< 1, none)]
  | .RIGHT_THUMB => some [(.buttons1, 1 <<< 2, none)]
  | _ => none

/-- `DSUGamepad.press_button`: set the bit (`|=`), pressure to 255. -/
def press_button (b : GamepadButton) (s : DSUState) : DSUState :=
  match BUTTON_ACTIONS b with
  | none => s
  | some actions =>
      actions.foldl (fun st act =>
        let st1 := updState st act.1 (st act.1 ||| act.2.1)
        match act.2.2 with
        | none => st1
        | some pk => updState st1 pk 255) s

/-- `DSUGamepad.release_button`: clear the bit (`&= ~bit`, i.e. bitwise
difference on the non-negative ints involved), pressure to 0. -/
def release_button (b : GamepadButton) (s : DSUState) : DSUState :=
  match BUTTON_ACTIONS b with
  | none => s
  | some actions =>
      actions.foldl (fun st act =>
        let st1 := updState st act.1 (Nat.ldiff (st act.1) act.2.1)
        match act.2.2 with
        | none => st1
        | some pk => updState st1 pk 0) s

lemma ldiff_lor_self (x b : Nat) :
    Nat.ldiff (x ||| b) b = Nat.ldiff x b := by
  apply Nat.eq_of_testBit_eq
  intro i
  rw [Nat.testBit_ldiff, Nat.testBit_ldiff, Nat.testBit_lor]
  cases Nat.testBit x i <;> cases Nat.testBit b i <;> rfl

/-! ## Claim theorems: C4, C5, C9, C10 -/

lemma eq_reverse_cons_cons (s : List Char) (c d : Char) (rest : List Char)
    (h : s.reverse = c :: d :: rest) : s = rest.reverse ++ [d, c] := by
  have h2 := congrArg List.reverse h
  simpa using h2

lemma dropLast_dropLast_append_pair (l : List Char) (d c : Char) :
    (l ++ [d, c]).dropLast.dropLast = l := by
  rw [show l ++ [d, c] = (l ++ [d]) ++ [c] by simp]
  rw [List.dropLast_concat, List.dropLast_concat]

lemma stripPRSuffix_of_not_endsInPR (s : List Char) (h : endsInPR s = false) :
    stripPRSuffix s = s := by
  unfold stripPRSuffix
  unfold endsInPR at h
  split
  · rename_i c d rest hrev
    rw [hrev] at h
    simp only [decide_eq_false_iff_not] at h
    rw [if_neg h]
  · rfl

lemma stripPRSuffix_of_endsInPR (s : List Char) (h : endsInPR s = true) :
    stripPRSuffix s = s.dropLast.dropLast := by
  unfold stripPRSuffix
  unfold endsInPR at h
  split
  · rename_i c d rest hrev
    rw [hrev] at h
    simp only [decide_eq_true_eq] at h
    rw [if_pos h]
    rw [eq_reverse_cons_cons s c d rest hrev, dropLast_dropLast_append_pair]
  · rename_i hno
    exfalso
    revert h
    split
    · rename_i c d rest hrev
      exact absurd hrev (by
        intro heq
        exact hno c d rest heq)
    · simp

/-- C9 (counterexample): `normalize_ble_address` is not idempotent —
"A/P/P" normalizes to "A/P", which normalizes again to "A". -/
theorem normalize_ble_address_not_idempotent :
    normalize_ble_address (normalize_ble_address
        (some ['A', '/', 'P', '/', 'P'])) ≠
      normalize_ble_address (some ['A', '/', 'P', '/', 'P']) := by decide

/-- C9 (amended): `normalize_ble_address` returns `None` and the empty
string unchanged, returns any string not ending in "/P" or "/R"
unchanged, and on a string ending in "/P" or "/R" strips exactly that
one two-character suffix (so it is not idempotent on strings such as
"A/P/P" whose stripped form again ends in "/P" or "/R"). -/
theorem normalize_ble_address_spec :
    normalize_ble_address none = none ∧
    normalize_ble_address (some []) = some [] ∧
    (∀ s : List Char, endsInPR s = false →
      normalize_ble_address (some s) = some s) ∧
    (∀ s : List Char, endsInPR s = true →
      normalize_ble_address (some s) = some s.dropLast.dropLast) := by
  refine ⟨rfl, rfl, ?_, ?_⟩
  · intro s h
    show (if s = [] then some s else some (stripPRSuffix s)) = some s
    rw [stripPRSuffix_of_not_endsInPR s h]
    split <;> rfl
  · intro s h
    show (if s = [] then some s else some (stripPRSuffix s))
        = some s.dropLast.dropLast
    rw [stripPRSuffix_of_endsInPR s h]
    have hne : s ≠ [] := by
      intro hnil
      rw [hnil] at h
      simp [endsInPR] at h
    rw [if_neg hne]

/-- C9 (witness for the amended theorem): "AB" is returned unchanged;
"A/P" is stripped to "A". -/
theorem normalize_ble_address_spec_witness :
    normalize_ble_address (some ['A', 'B']) = some ['A', 'B'] ∧
    normalize_ble_address (some ['A', '/', 'P']) = some ['A'] := by
  constructor
  · exact normalize_ble_address_spec.2.2.1 ['A', 'B'] (by decide)
  · have h := normalize_ble_address_spec.2.2.2 ['A', '/', 'P'] (by decide)
    simpa using h

/-- C10: starting from (no instance, refcount 0), after any serialized
sequence of `_acquire_server` / `_release_server` calls the refcount is
never negative and the server instance exists exactly when the refcount
is positive. -/
theorem dsu_server_refcount_invariant (ops : List ServerOp) :
    serverInv (runServerOps ops) := by
  suffices h : ∀ g, serverInv g → serverInv (ops.foldl serverStep g) by
    exact h initialGlobals (by simp [serverInv, initialGlobals])
  induction ops with
  | nil => intro g hg; exact hg
  | cons op t ih => intro g hg; exact ih _ (serverStep_preserves_inv g op hg)

/-- C5 (counterexample): with the device found and only the first
endpoint write (step 5) failing, `connect` returns failure and the HID
open (step 8) is never attempted — contradicting the claim that
failures in steps 2–7 do not abort the connection. -/
theorem connect_write_failure_aborts :
    (UsbEnv.mk true false false false true false false false).deviceFound
        = true ∧
    (UsbEnv.mk true false false false true false false false).hidOpenFails
        = false ∧
    connect (UsbEnv.mk true false false false true false false false)
        = false ∧
    hidOpenAttempted (UsbEnv.mk true false false false true false false false)
        = false := by decide

/-- C5 (amended): `connect` succeeds iff the device is found (step 1),
both endpoint writes succeed (steps 5 and 6) and the HID open succeeds
(step 8); failures of kernel-driver detach, set-configuration,
claim-interface and release-interface (steps 2, 3, 4 and 7) never
change the outcome, and the HID open is attempted iff steps 1, 5 and 6
succeeded. -/
theorem connect_success_characterization (e : UsbEnv) :
    connect e =
      (e.deviceFound && !e.initWriteFails && !e.ledWriteFails
        && !e.hidOpenFails) ∧
    hidOpenAttempted e =
      (e.deviceFound && !e.initWriteFails && !e.ledWriteFails) := by
  obtain ⟨df, dt, sc, cl, iw, lw, rl, ho⟩ := e
  cases df <;> cases iw <;> cases lw <;> cases ho <;> exact ⟨rfl, rfl⟩

/-- C4: feeding the DSU virtual pad the neutral normalized stick value
`left_joystick(0,0)` sets lx and ly to 127 (not 128 as the claim, the
code's own "centered at 128" comment and the neutral slot state say),
and `left_joystick(32767,0)` sets lx to 255 but ly to 127; the right
stick behaves identically. -/
theorem dsu_stick_neutral_byte :
    (left_joystick 0 0 makeEmptyState) SKey.lx = 127 ∧
    (left_joystick 0 0 makeEmptyState) SKey.ly = 127 ∧
    (left_joystick 32767 0 makeEmptyState) SKey.lx = 255 ∧
    (left_joystick 32767 0 makeEmptyState) SKey.ly = 127 ∧
    (right_joystick 0 0 makeEmptyState) SKey.rx = 127 ∧
    (right_joystick 0 0 makeEmptyState) SKey.ry = 127 ∧
    (right_joystick 32767 0 makeEmptyState) SKey.rx = 255 ∧
    (right_joystick 32767 0 makeEmptyState) SKey.ry = 127 := by decide

/-- C7 (counterexample): the SPI-read command actually sent during
connection (`build_spi_read(SPI_DEVICE_INFO, 0x40)`) has a length byte
of 8 at offset 5 followed by 8 payload bytes, not the len−1 = 7 the
claim requires. -/
theorem sw2_len_minus_one_fails :
    ¬ sw2Framed (build_spi_read 0x00 0x30 0x01 0x00 0x40)
      ((build_spi_read 0x00 0x30 0x01 0x00 0x40).getD 5 0 - 1) := by decide

/-- C7 (amended): every command packet built for the BLE command
channel (SPI read, LED, feature configure/enable, pairing steps 1–4)
consists of the eight-byte prefix `[cmd, 0x91, 0x01, subcmd, 0x00, len,
0x00, 0x00]` followed by exactly `len` bytes of payload, where `len` is
the byte at offset 5. -/
theorem sw2_command_framing :
    (∀ a0 a1 a2 a3 size, sw2Framed (build_spi_read a0 a1 a2 a3 size)
      ((build_spi_read a0 a1 a2 a3 size).getD 5 0)) ∧
    (∀ ledMask, sw2Framed (build_led_cmd ledMask)
      ((build_led_cmd ledMask).getD 5 0)) ∧
    (∀ flags, sw2Framed (build_feature_configure flags)
      ((build_feature_configure flags).getD 5 0)) ∧
    (∀ flags, sw2Framed (build_feature_enable flags)
      ((build_feature_enable flags).getD 5 0)) ∧
    (∀ b0 b1 b2 b3 b4 b5, sw2Framed (build_pair_step1 b0 b1 b2 b3 b4 b5)
      ((build_pair_step1 b0 b1 b2 b3 b4 b5).getD 5 0)) ∧
    sw2Framed PAIR_STEP2 (PAIR_STEP2.getD 5 0) ∧
    sw2Framed PAIR_STEP3 (PAIR_STEP3.getD 5 0) ∧
    sw2Framed PAIR_STEP4 (PAIR_STEP4.getD 5 0) := by
  refine ⟨?_, ?_, ?_, ?_, ?_, by decide, by decide, by decide⟩ <;>
    intros <;>
    exact ⟨by norm_num [build_spi_read, build_led_cmd,
        build_feature_configure, build_feature_enable, build_pair_step1],
      rfl, rfl, rfl, rfl, rfl, rfl⟩

/-- C8: pressing then releasing a button equals releasing it alone
(the press-then-release clears exactly the button's bit and zeroes its
pressure key), and a button with no entry in `_BUTTON_ACTIONS` leaves
the state completely unchanged under both press and release. -/
theorem dsu_press_release_algebra :
    (∀ (s : DSUState) (b : GamepadButton),
      release_button b (press_button b s) = release_button b s) ∧
    (∀ (s : DSUState) (b : GamepadButton), BUTTON_ACTIONS b = none →
      press_button b s = s ∧ release_button b s = s) := by
  constructor
  · intro s b
    funext k'
    cases b <;>
      simp only [press_button, release_button, BUTTON_ACTIONS,
        List.foldl, updState] <;>
      split_ifs <;>
      first
      | rfl
      | contradiction
      | exact ldiff_lor_self _ _
  · intro s b h
    constructor <;> simp [press_button, release_button, h]

/-- C8 (witness): the unmapped `CAPTURE` button leaves the neutral
state unchanged. -/
theorem dsu_press_release_algebra_witness :
    press_button GamepadButton.CAPTURE makeEmptyState = makeEmptyState ∧
    release_button GamepadButton.CAPTURE makeEmptyState = makeEmptyState :=
  dsu_press_release_algebra.2 makeEmptyState GamepadButton.CAPTURE rfl

/-! ## dsu_server.py: subscriber registry and TTL

`time.monotonic()` instants are modelled as rationals (only their order
and the `+ 5.0` offset matter); client addresses as naturals.  The
subscriber dict is an insertion-ordered association list with unique
keys, as a Python dict guarantees. -/

/-- The subscriber map `addr → expiry`. -/
def Subs := List (Nat × ℚ)

/-- `self._subscribers[addr] = v`: replace in place or append. -/
def setSub (s : Subs) (addr : Nat) (v : ℚ) : Subs :=
  match s with
  | [] => [(addr, v)]
  | e :: t => if e.1 = addr then (e.1, v) :: t else e :: setSub t addr v

/-- `DSUServer._handle_data_request` at time `now`: record
`(addr, now + 5.0)`. -/
def handleDataRequest (s : Subs) (addr : Nat) (now : ℚ) : Subs :=
  setSub s addr (now + 5)

/-- Lookup of a subscriber's expiry. -/
def subLookup (s : Subs) (addr : Nat) : Option ℚ :=
  match s with
  | [] => none
  | e :: t => if e.1 = addr then some e.2 else subLookup t addr

/-- The pruning step of `_send_data_to_subscribers`: delete every
entry with `exp < now`. -/
def pruneSubs (s : Subs) (now : ℚ) : Subs :=
  s.filter (fun e => !decide (e.2 < now))

/-- One `update_slot` emission at time `now`: prune, then send the
packet to every remaining subscriber.  Returns the new map and the
recipient list. -/
def emitAt (s : Subs) (now : ℚ) : Subs × List Nat :=
  let pruned := pruneSubs s now
  (pruned, pruned.map Prod.fst)

/-- Run a sequence of emissions, pairing each emission time with the
addresses the packet was sent to. -/
def runEmits (s : Subs) : List ℚ → List (ℚ × List Nat)
  | [] => []
  | tm :: rest =>
      let r := emitAt s tm
      (tm, r.2) :: runEmits r.1 rest

lemma sublist_map_fst_pruneSubs (s : Subs) (now : ℚ) :
    ((pruneSubs s now).map Prod.fst).Sublist (s.map Prod.fst) :=
  (List.filter_sublist s).map Prod.fst

lemma nodup_pruneSubs (s : Subs) (now : ℚ)
    (h : (s.map Prod.fst).Nodup) :
    ((pruneSubs s now).map Prod.fst).Nodup :=
  h.sublist (sublist_map_fst_pruneSubs s now)

lemma subLookup_pruneSubs (s : Subs) (addr : Nat) (v : ℚ) (now : ℚ)
    (hl : subLookup s addr = some v) (hkeep : ¬ v < now) :
    subLookup (pruneSubs s now) addr = some v := by
  induction s with
  | nil => simp [subLookup] at hl
  | cons e t ih =>
    by_cases he : e.1 = addr
    · rw [subLookup, if_pos he] at hl
      have hv : e.2 = v := Option.some.inj hl
      rw [pruneSubs, List.filter_cons, if_pos (by simp [hv, hkeep])]
      rw [subLookup, if_pos he, hv]
    · rw [subLookup, if_neg he] at hl
      rw [pruneSubs, List.filter_cons]
      split
      · rw [subLookup, if_neg he]
        exact ih hl
      · exact ih hl

lemma not_mem_map_fst_pruneSubs (s : Subs) (addr : Nat) (now : ℚ)
    (h : addr ∉ s.map Prod.fst) :
    addr ∉ (pruneSubs s now).map Prod.fst := by
  intro hmem
  exact h ((sublist_map_fst_pruneSubs s now).subset hmem)

lemma mem_recipients_iff (s : Subs) (addr : Nat) (v : ℚ) (now : ℚ)
    (hnd : (s.map Prod.fst).Nodup) (hl : subLookup s addr = some v) :
    (addr ∈ (pruneSubs s now).map Prod.fst ↔ ¬ v < now) := by
  induction s with
  | nil => simp [subLookup] at hl
  | cons e t ih =>
    simp only [List.map_cons, List.nodup_cons] at hnd
    by_cases he : e.1 = addr
    · rw [subLookup, if_pos he] at hl
      have hv : e.2 = v := Option.some.inj hl
      rw [pruneSubs, List.filter_cons]
      by_cases hk : v < now
      · rw [if_neg (by simp [hv, hk])]
        constructor
        · intro hmem
          exact absurd ((sublist_map_fst_pruneSubs t now).subset hmem)
            (he ▸ hnd.1)
        · intro hnot; exact absurd hk hnot
      · rw [if_pos (by simp [hv, hk])]
        simp [he, hk]
    · rw [subLookup, if_neg he] at hl
      rw [pruneSubs, List.filter_cons]
      split
      · simp only [List.map_cons, List.mem_cons]
        rw [pruneSubs] at ih
        constructor
        · intro hmem
          rcases hmem with h1 | h2
          · exact absurd h1.symm he
          · exact (ih hnd.2 hl).mp h2
        · intro hge
          exact Or.inr ((ih hnd.2 hl).mpr hge)
      · rw [pruneSubs] at ih
        exact ih hnd.2 hl

lemma runEmits_fst_mem (emits : List ℚ) :
    ∀ (s : Subs) (p : ℚ × List Nat), p ∈ runEmits s emits →
      p.1 ∈ emits := by
  induction emits with
  | nil => intro s p hp; simp [runEmits] at hp
  | cons tm rest ih =>
    intro s p hp
    rw [runEmits] at hp
    rcases List.mem_cons.mp hp with h1 | h2
    · rw [h1]; exact List.mem_cons_self _ _
    · exact List.mem_cons_of_mem _ (ih _ p h2)

lemma runEmits_absent (emits : List ℚ) :
    ∀ (s : Subs) (addr : Nat), addr ∉ s.map Prod.fst →
      ∀ p ∈ runEmits s emits, addr ∉ p.2 := by
  induction emits with
  | nil => intro s addr _ p hp; simp [runEmits] at hp
  | cons tm rest ih =>
    intro s addr habs p hp
    rw [runEmits] at hp
    rcases List.mem_cons.mp hp with h1 | h2
    · rw [h1]
      exact not_mem_map_fst_pruneSubs s addr tm habs
    · exact ih _ addr (not_mem_map_fst_pruneSubs s addr tm habs) p h2

lemma runEmits_present (emits : List ℚ) (addr : Nat) (texp : ℚ) :
    ∀ (s : Subs), (s.map Prod.fst).Nodup →
      emits.Sorted (· ≤ ·) →
      subLookup s addr = some texp →
      ∀ p ∈ runEmits s emits, (addr ∈ p.2 ↔ p.1 ≤ texp) := by
  induction emits with
  | nil => intro s _ _ _ p hp; simp [runEmits] at hp
  | cons tm rest ih =>
    intro s hnd hsort hl p hp
    have hsort_rest : rest.Sorted (· ≤ ·) := hsort.of_cons
    have hsort_head : ∀ x ∈ rest, tm ≤ x :=
      fun x hx => (List.sorted_cons.mp hsort).1 x hx
    rw [runEmits] at hp
    rcases List.mem_cons.mp hp with h1 | h2
    · rw [h1]
      have hiff := mem_recipients_iff s addr texp tm hnd hl
      rw [not_lt] at hiff
      exact hiff
    · by_cases hkeep : tm ≤ texp
      · exact ih (pruneSubs s tm) (nodup_pruneSubs s tm hnd) hsort_rest
          (subLookup_pruneSubs s addr texp tm hl (not_lt.mpr hkeep)) p h2
      · have habs : addr ∉ (pruneSubs s tm).map Prod.fst := by
          have hiff := mem_recipients_iff s addr texp tm hnd hl
          intro hmem
          exact hkeep (not_lt.mp (hiff.mp hmem))
        constructor
        · intro hmem
          exact absurd hmem (runEmits_absent rest _ addr habs p h2)
        · intro hle
          exfalso
          have hp1 : p.1 ∈ rest := runEmits_fst_mem rest _ p h2
          exact hkeep (le_trans (hsort_head p.1 hp1) hle)

lemma mem_map_fst_setSub (tl : Subs) (addr x : Nat) (v : ℚ) :
    x ∈ (setSub tl addr v).map Prod.fst → x ∈ tl.map Prod.fst ∨ x = addr := by
  induction tl with
  | nil =>
    intro h
    simp [setSub] at h
    exact Or.inr h
  | cons e t ih =>
    intro h
    rw [setSub] at h
    split at h
    · simp only [List.map_cons, List.mem_cons] at h ⊢
      exact Or.inl h
    · simp only [List.map_cons, List.mem_cons] at h ⊢
      rcases h with h1 | h2
      · exact Or.inl (Or.inl h1)
      · rcases ih h2 with ha | hb
        · exact Or.inl (Or.inr ha)
        · exact Or.inr hb

lemma nodup_setSub (tl : Subs) (addr : Nat) (v : ℚ)
    (h : (tl.map Prod.fst).Nodup) :
    ((setSub tl addr v).map Prod.fst).Nodup := by
  induction tl with
  | nil => simp [setSub]
  | cons e t ih =>
    simp only [List.map_cons, List.nodup_cons] at h
    rw [setSub]
    split
    · simp only [List.map_cons, List.nodup_cons]
      exact ⟨h.1, h.2⟩
    · rename_i he
      simp only [List.map_cons, List.nodup_cons]
      refine ⟨?_, ih h.2⟩
      intro hmem
      rcases mem_map_fst_setSub t addr e.1 v hmem with ha | hb
      · exact h.1 ha
      · exact he hb

lemma subLookup_setSub_self (tl : Subs) (addr : Nat) (v : ℚ) :
    subLookup (setSub tl addr v) addr = some v := by
  induction tl with
  | nil => simp [setSub, subLookup]
  | cons e t ih =>
    rw [setSub]
    split
    · rename_i he
      rw [subLookup, if_pos he]
    · rename_i he
      rw [subLookup, if_neg he]
      exact ih

/-- C6: a client recorded by a pad-data request at time `t` receives
every pad-data packet emitted while the (monotonic) current time is
within `[t, t + 5]`, and receives no packet emitted after `t + 5`,
absent a renewing request. -/
theorem dsu_subscriber_ttl (subs : Subs) (addr : Nat) (t : ℚ)
    (emits : List ℚ) (hnd : (subs.map Prod.fst).Nodup)
    (hsort : emits.Sorted (· ≤ ·)) :
    ∀ p ∈ runEmits (handleDataRequest subs addr t) emits,
      (addr ∈ p.2 ↔ p.1 ≤ t + 5) :=
  runEmits_present emits addr (t + 5) (setSub subs addr (t + 5))
    (nodup_setSub subs addr (t + 5) hnd) hsort
    (subLookup_setSub_self subs addr (t + 5))

/-- C6 (witness): with an empty registry, a request at time 0 and
emissions at times 3 and 6, the packet at time 3 reaches the client and
the packet at time 6 (past the 5-second TTL) does not. -/
theorem dsu_subscriber_ttl_witness :
    ((0 ∈ [0] ↔ (3 : ℚ) ≤ 0 + 5) ∧ (0 ∈ ([] : List Nat) ↔ (6 : ℚ) ≤ 0 + 5)) := by
  have hrun : runEmits (handleDataRequest [] 0 0) [3, 6]
      = [((3 : ℚ), [0]), (6, [])] := by
    norm_num [runEmits, emitAt, pruneSubs, handleDataRequest, setSub]
  constructor
  · exact dsu_subscriber_ttl [] 0 0 [3, 6] (by decide)
      (by simp [List.sorted_cons]; norm_num)
      ((3 : ℚ), [0]) (by rw [hrun]; exact List.mem_cons_self _ _)
  · exact dsu_subscriber_ttl [] 0 0 [3, 6] (by decide)
      (by simp [List.sorted_cons]; norm_num)
      ((6 : ℚ), ([] : List Nat))
      (by rw [hrun]; exact List.mem_cons_of_mem _ (List.mem_cons_self _ _))

/-! ## settings_manager.py: versioned settings store

Python dicts are modelled as insertion-ordered association lists over
`String` keys; `d[k] = v` replaces in place or appends, `d.update(o)`
folds `dset` over `o`, `d.setdefault(k, v)` appends only when absent,
`d.pop(k, None)` removes the key.  Setting values are opaque to
load/save, so the theory is developed over an arbitrary value type. -/

/-- A Python dict with `String` keys. -/
abbrev Dict (V : Type) : Type := List (String × V)

/-- `d.get(k)` / `d[k]`. -/
def dget {V : Type} (d : Dict V) (k : String) : Option V :=
  match d with
  | [] => none
  | e :: t => if e.1 = k then some e.2 else dget t k

/-- `d[k] = v`. -/
def dset {V : Type} (d : Dict V) (k : String) (v : V) : Dict V :=
  match d with
  | [] => [(k, v)]
  | e :: t => if e.1 = k then (e.1, v) :: t else e :: dset t k v

/-- `d.pop(k, None)` (the removal effect). -/
def dpop {V : Type} (d : Dict V) (k : String) : Dict V :=
  match d with
  | [] => []
  | e :: t => if e.1 = k then t else e :: dpop t k

/-- `d.setdefault(k, v)`. -/
def dsetdefault {V : Type} (d : Dict V) (k : String) (v : V) : Dict V :=
  match dget d k with
  | some _ => d
  | none => d ++ [(k, v)]

/-- `d.update(other)`. -/
def dupdate {V : Type} (d other : Dict V) : Dict V :=
  other.foldl (fun acc e => dset acc e.1 e.2) d

/-- `list(d.keys())`. -/
def dkeys {V : Type} (d : Dict V) : List String := d.map Prod.fst

/-- `settings_manager._GLOBAL_KEYS` (a Python set; listed here in
source order — only membership matters). -/
def GLOBAL_KEYS : List String :=
  ["auto_connect", "emulation_mode", "trigger_bump_100_percent",
   "minimize_to_tray", "known_ble_devices"]

/-- Modelled from the spec: `controller_constants.MAX_SLOTS`
(controller_constants.py is not among the provided sources); §3 and
§4.6 of the spec fix four controller slots, keyed "0"–"3". -/
def MAX_SLOTS : Nat := 4

/-- A parsed v3 settings file `{'version': …, 'global': …,
'slots': …}` (load reads the two sections with `.get(…, {})`; a
well-formed file has both). -/
structure SettingsFile (V : Type) where
  version : Int
  globalSection : Dict V
  slots : Dict (Dict V)

/-- The slot-0 loop body of `_load_v3`: for each global key present in
the global section, `slot_data.setdefault(key, global_settings[key])`. -/
def applyGlobalsSetdefault {V : Type} (g sd : Dict V) : Dict V :=
  GLOBAL_KEYS.foldl (fun acc k =>
    match dget g k with
    | some v => dsetdefault acc k v
    | none => acc) sd

/-- The final loop of `_load_v3` / `_load_v2`: for each global key
present in the global section, `slot_calibrations[0][key] = value`. -/
def overwriteGlobals {V : Type} (g c : Dict V) : Dict V :=
  GLOBAL_KEYS.foldl (fun acc k =>
    match dget g k with
    | some v => dset acc k v
    | none => acc) c

/-- `SettingsManager._load_v3`: update each slot calibration with its
section (slot 0 first receives the global keys via `setdefault`), then
overwrite the global keys onto slot 0's calibration. -/
def load_v3 {V : Type} (saved : SettingsFile V) (cals : List (Dict V)) :
    List (Dict V) :=
  let step : Nat → Dict V → Dict V := fun i c =>
    let sd := (dget saved.slots (toString i)).getD []
    let sd := if i = 0 then applyGlobalsSetdefault saved.globalSection sd
              else sd
    dupdate c sd
  let cals1 := (List.range MAX_SLOTS).map
    (fun i => step i ((cals.get? i).getD []))
  cals1.set 0 (overwriteGlobals saved.globalSection ((cals1.get? 0).getD []))

/-- The body of `save`'s slot loop: split one calibration dict into its
global-keyed part and the rest, preserving iteration order. -/
def splitStep {V : Type} (acc : Dict V × Dict V) (e : String × V) :
    Dict V × Dict V :=
  if e.1 ∈ GLOBAL_KEYS then (dset acc.1 e.1 e.2, acc.2)
  else (acc.1, dset acc.2 e.1 e.2)

def splitCal {V : Type} (cal : Dict V) : Dict V × Dict V :=
  cal.foldl splitStep ([], [])

/-- `SettingsManager.save`: always writes v3; global keys are read from
slot 0 only and dropped from the other slots. -/
def save {V : Type} (cals : List (Dict V)) : SettingsFile V :=
  { version := 3
    globalSection := (splitCal ((cals.get? 0).getD [])).1
    slots := (List.range MAX_SLOTS).map
      (fun i => (toString i, (splitCal ((cals.get? i).getD [])).2)) }

/-- The v1 trigger-key renames, in source order. -/
def KEY_MIGRATION : List (String × String) :=
  [("left_base", "trigger_left_base"), ("left_bump", "trigger_left_bump"),
   ("left_max", "trigger_left_max"), ("right_base", "trigger_right_base"),
   ("right_bump", "trigger_right_bump"), ("right_max", "trigger_right_max"),
   ("bump_100_percent", "trigger_bump_100_percent")]

/-- The key-migration loop of `_load_v1`: rename `old → new` when the
new name is absent, otherwise just delete the old key. -/
def migrateKeys {V : Type} (saved : Dict V) : Dict V :=
  KEY_MIGRATION.foldl (fun acc km =>
    match dget acc km.1 with
    | some v =>
        if (dget acc km.2).isSome then dpop acc km.1
        else dset (dpop acc km.1) km.2 v
    | none => acc) saved

/-- `SettingsManager._load_v1`: migrate key names, strip removed keys,
apply everything to slot 0. -/
def load_v1 {V : Type} (saved : Dict V) (cals : List (Dict V)) :
    List (Dict V) :=
  let saved := migrateKeys saved
  let saved := dpop saved "preferred_ble_address"
  let saved := dpop saved "connection_mode"
  let saved := dpop saved "known_ble_addresses"
  cals.set 0 (dupdate ((cals.get? 0).getD []) saved)

/-- Calibration values as persisted: numbers, booleans, strings, and
the (default-empty) known-BLE-devices registry, treated opaquely by
load/save. -/
inductive CalVal where
  | i : Int → CalVal
  | b : Bool → CalVal
  | s : String → CalVal
  | emptyMap : CalVal
deriving DecidableEq

/-- Modelled from the spec: `controller_constants.DEFAULT_CALIBRATION`
(controller_constants.py is not among the provided sources).  Per §3 of
the spec a slot calibration persists stick centers and ranges, the
per-trigger (base, bump, max) triples, the trigger mode flag and — on
slot 0 — the global flags `auto_connect`, `emulation_mode` and the
known-BLE-devices map (empty by default); trigger keys carry the
post-migration `trigger_*` names of §4.6. -/
def DEFAULT_CALIBRATION : Dict CalVal :=
  [("left_stick_center_x", .i 128), ("left_stick_center_y", .i 128),
   ("left_stick_range_x", .i 100), ("left_stick_range_y", .i 100),
   ("right_stick_center_x", .i 128), ("right_stick_center_y", .i 128),
   ("right_stick_range_x", .i 100), ("right_stick_range_y", .i 100),
   ("trigger_left_base", .i 0), ("trigger_left_bump", .i 128),
   ("trigger_left_max", .i 255),
   ("trigger_right_base", .i 0), ("trigger_right_bump", .i 128),
   ("trigger_right_max", .i 255),
   ("trigger_bump_100_percent", .b false),
   ("auto_connect", .b false), ("emulation_mode", .s "xbox360"),
   ("known_ble_devices", .emptyMap)]

/-- The four default slot calibrations (`dict(DEFAULT_CALIBRATION)`
per slot). -/
def defaultCals : List (Dict CalVal) :=
  [DEFAULT_CALIBRATION, DEFAULT_CALIBRATION, DEFAULT_CALIBRATION,
   DEFAULT_CALIBRATION]

/-- First-some choice, the association-list update semantics. -/
def oreD {V : Type} (a b : Option V) : Option V :=
  match a with
  | some v => some v
  | none => b

/-- Dict equality up to key ordering. -/
def eqD {V : Type} (d1 d2 : Dict V) : Prop :=
  (∀ k ∈ dkeys d1, dget d2 k = dget d1 k) ∧
  (∀ k ∈ dkeys d2, dget d1 k = dget d2 k)

/-- Lift `eqD` to optional dicts. -/
def eqOptD {V : Type} : Option (Dict V) → Option (Dict V) → Prop
  | none, none => True
  | some a, some b => eqD a b
  | _, _ => False

/-- Dict-of-dicts equality up to key ordering at both levels. -/
def eqDD {V : Type} (s1 s2 : Dict (Dict V)) : Prop :=
  (∀ k ∈ dkeys s1, eqOptD (dget s2 k) (dget s1 k)) ∧
  (∀ k ∈ dkeys s2, eqOptD (dget s1 k) (dget s2 k))

/-- Settings-file equality up to key ordering. -/
def eqSettings {V : Type} (a b : SettingsFile V) : Prop :=
  a.version = b.version ∧ eqD a.globalSection b.globalSection ∧
    eqDD a.slots b.slots

instance {V : Type} [DecidableEq V] (d1 d2 : Dict V) :
    Decidable (eqD d1 d2) := by
  unfold eqD
  infer_instance

instance {V : Type} [DecidableEq V] :
    ∀ (a b : Option (Dict V)), Decidable (eqOptD a b)
  | none, none => isTrue trivial
  | some a, some b => (inferInstance : Decidable (eqD a b))
  | none, some _ => isFalse (fun h => h)
  | some _, none => isFalse (fun h => h)

instance {V : Type} [DecidableEq V] (s1 s2 : Dict (Dict V)) :
    Decidable (eqDD s1 s2) := by
  unfold eqDD
  infer_instance

instance {V : Type} [DecidableEq V] (a b : SettingsFile V) :
    Decidable (eqSettings a b) := by
  unfold eqSettings
  infer_instance

/-- Well-formedness of a v3 settings object as the claim states it,
together with the representation invariants a JSON object guarantees
(unique keys at every level) and the v3 schema's slot key set: version
3, a global section whose key set is exactly `_GLOBAL_KEYS`, slot
sections "0"–"3" free of global keys. -/
def wellFormedV3 {V : Type} (S : SettingsFile V) : Prop :=
  S.version = 3 ∧
  (dkeys S.globalSection).Nodup ∧
  (∀ k ∈ GLOBAL_KEYS, k ∈ dkeys S.globalSection) ∧
  (∀ k ∈ dkeys S.globalSection, k ∈ GLOBAL_KEYS) ∧
  (dkeys S.slots).Nodup ∧
  (∀ k ∈ dkeys S.slots, k ∈ (["0", "1", "2", "3"] : List String)) ∧
  (∀ k ∈ (["0", "1", "2", "3"] : List String), k ∈ dkeys S.slots) ∧
  (∀ e ∈ S.slots, (dkeys e.2).Nodup ∧ ∀ k ∈ dkeys e.2, k ∉ GLOBAL_KEYS)

instance {V : Type} [DecidableEq V] (S : SettingsFile V) :
    Decidable (wellFormedV3 S) := by
  unfold wellFormedV3
  infer_instance

/-- Unique keys in every slot calibration dict (a Python dict
invariant). -/
def validCals {V : Type} (cals : List (Dict V)) : Prop :=
  ∀ c ∈ cals, (dkeys c).Nodup

/-- Every non-global key of slot `i`'s calibration occurs in `S`'s
slot-`i` section: the condition under which loading `S` over those
calibrations and saving reproduces `S`. -/
def covers {V : Type} (cals : List (Dict V)) (S : SettingsFile V) : Prop :=
  ∀ i ∈ List.range MAX_SLOTS, ∀ k ∈ dkeys ((cals.get? i).getD []),
    k ∉ GLOBAL_KEYS → k ∈ dkeys ((dget S.slots (toString i)).getD [])

instance {V : Type} (cals : List (Dict V)) : Decidable (validCals cals) := by
  unfold validCals
  infer_instance

instance {V : Type} (cals : List (Dict V)) (S : SettingsFile V) :
    Decidable (covers cals S) := by
  unfold covers
  infer_instance

@[simp] lemma oreD_some {V : Type} (v : V) (b : Option V) :
    oreD (some v) b = some v := rfl

@[simp] lemma oreD_none {V : Type} (b : Option V) : oreD none b = b := rfl

lemma dget_dset_self {V : Type} (d : Dict V) (k : String) (v : V) :
    dget (dset d k v) k = some v := by
  induction d with
  | nil => simp [dset, dget]
  | cons e t ih =>
    rw [dset]
    split
    · rename_i he
      rw [dget, if_pos he]
    · rename_i he
      rw [dget, if_neg he]
      exact ih

lemma dget_dset_ne {V : Type} (d : Dict V) (k : String) (v : V)
    (k' : String) (h : k ≠ k') : dget (dset d k v) k' = dget d k' := by
  induction d with
  | nil => simp [dset, dget, h]
  | cons e t ih =>
    rw [dset]
    split
    · rename_i he
      rw [dget, dget]
      have : e.1 = k' ↔ False := by
        constructor
        · intro hk; exact h (he ▸ hk)
        · intro hf; exact hf.elim
      simp only [this, if_false]
    · rename_i he
      rw [dget, dget]
      split
      · rfl
      · exact ih

lemma dget_eq_none_of_not_mem {V : Type} (d : Dict V) (k : String)
    (h : k ∉ dkeys d) : dget d k = none := by
  induction d with
  | nil => rfl
  | cons e t ih =>
    simp only [dkeys, List.map_cons, List.mem_cons, not_or] at h
    rw [dget, if_neg (fun hh => h.1 hh.symm)]
    exact ih (by simpa [dkeys] using h.2)

lemma dget_isSome_iff {V : Type} (d : Dict V) (k : String) :
    (dget d k).isSome ↔ k ∈ dkeys d := by
  induction d with
  | nil => simp [dget, dkeys]
  | cons e t ih =>
    rw [dget]
    by_cases he : e.1 = k
    · simp [he, dkeys]
    · simp only [if_neg he, dkeys, List.map_cons, List.mem_cons, ih, dkeys]
      constructor
      · intro h; exact Or.inr h
      · intro h
        rcases h with h1 | h2
        · exact absurd h1.symm he
        · exact h2

lemma dget_eq_some_mem {V : Type} (d : Dict V) (k : String) (v : V)
    (h : dget d k = some v) : (k, v) ∈ d := by
  induction d with
  | nil => simp [dget] at h
  | cons e t ih =>
    rw [dget] at h
    split at h
    · rename_i he
      have hv : e.2 = v := Option.some.inj h
      have : e = (k, v) := Prod.ext he hv
      rw [← this]
      exact List.mem_cons_self _ _
    · exact List.mem_cons_of_mem _ (ih h)

lemma mem_dkeys_dset {V : Type} (d : Dict V) (k x : String) (v : V)
    (h : x ∈ dkeys (dset d k v)) : x ∈ dkeys d ∨ x = k := by
  induction d with
  | nil =>
    simp [dset, dkeys] at h
    exact Or.inr h
  | cons e t ih =>
    rw [dset] at h
    split at h
    · simp only [dkeys, List.map_cons, List.mem_cons] at h ⊢
      exact Or.inl h
    · simp only [dkeys, List.map_cons, List.mem_cons] at h ⊢
      rcases h with h1 | h2
      · exact Or.inl (Or.inl h1)
      · rcases ih h2 with ha | hb
        · exact Or.inl (Or.inr ha)
        · exact Or.inr hb

lemma nodup_dkeys_dset {V : Type} (d : Dict V) (k : String) (v : V)
    (h : (dkeys d).Nodup) : (dkeys (dset d k v)).Nodup := by
  induction d with
  | nil => simp [dset, dkeys]
  | cons e t ih =>
    simp only [dkeys, List.map_cons, List.nodup_cons] at h
    rw [dset]
    split
    · simp only [dkeys, List.map_cons, List.nodup_cons]
      exact ⟨h.1, h.2⟩
    · rename_i he
      simp only [dkeys, List.map_cons, List.nodup_cons]
      refine ⟨?_, ih h.2⟩
      intro hmem
      rcases mem_dkeys_dset t k e.1 v hmem with ha | hb
      · exact h.1 ha
      · exact he hb

lemma dget_append_single {V : Type} (d : Dict V) (k : String) (v : V)
    (k' : String) :
    dget (d ++ [(k, v)]) k' =
      oreD (dget d k') (if k = k' then some v else none) := by
  induction d with
  | nil => simp [dget]
  | cons e t ih =>
    rw [List.cons_append, dget, dget]
    split
    · rfl
    · exact ih

lemma dget_dsetdefault {V : Type} (d : Dict V) (k : String) (v : V)
    (k' : String) :
    dget (dsetdefault d k v) k' =
      oreD (dget d k') (if k = k' then some v else none) := by
  rw [dsetdefault]
  split
  · rename_i w hw
    by_cases hk : k = k'
    · rw [← hk, hw]; rfl
    · simp [hk]
      cases dget d k' <;> rfl
  · exact dget_append_single d k v k'

lemma nodup_dkeys_dsetdefault {V : Type} (d : Dict V) (k : String) (v : V)
    (h : (dkeys d).Nodup) : (dkeys (dsetdefault d k v)).Nodup := by
  rw [dsetdefault]
  split
  · exact h
  · rename_i hw
    have hnot : k ∉ dkeys d := by
      intro hmem
      have hs := (dget_isSome_iff d k).mpr hmem
      rw [hw] at hs
      simp at hs
    have hk : dkeys (d ++ [(k, v)]) = dkeys d ++ [k] := by simp [dkeys]
    rw [hk, List.nodup_append]
    refine ⟨h, List.nodup_singleton k, ?_⟩
    intro x hx hxk
    rw [List.mem_singleton] at hxk
    subst hxk
    exact hnot hx

lemma dget_dupdate {V : Type} (o : Dict V) :
    ∀ (d : Dict V) (k : String), (dkeys o).Nodup →
      dget (dupdate d o) k = oreD (dget o k) (dget d k) := by
  induction o with
  | nil => intro d k _; rfl
  | cons e t ih =>
    intro d k hnd
    simp only [dkeys, List.map_cons, List.nodup_cons] at hnd
    have step : dupdate d (e :: t) = dupdate (dset d e.1 e.2) t := rfl
    rw [step, ih (dset d e.1 e.2) k hnd.2, dget]
    by_cases he : e.1 = k
    · rw [if_pos he]
      have ht : dget t k = none := by
        apply dget_eq_none_of_not_mem
        intro hmem
        exact hnd.1 (he ▸ hmem)
      rw [ht, he, dget_dset_self]
      rfl
    · rw [if_neg he, dget_dset_ne d e.1 e.2 k he]

lemma nodup_dkeys_dupdate {V : Type} (o : Dict V) :
    ∀ (d : Dict V), (dkeys d).Nodup → (dkeys (dupdate d o)).Nodup := by
  induction o with
  | nil => intro d h; exact h
  | cons e t ih =>
    intro d h
    have step : dupdate d (e :: t) = dupdate (dset d e.1 e.2) t := rfl
    rw [step]
    exact ih _ (nodup_dkeys_dset d e.1 e.2 h)

@[simp] lemma oreD_none_right {V : Type} (a : Option V) : oreD a none = a := by
  cases a <;> rfl

@[simp] lemma oreD_oreD {V : Type} (a b : Option V) :
    oreD (oreD a b) b = oreD a b := by
  cases a <;> cases b <;> rfl

lemma dget_fold_setdefault {V : Type} (g : Dict V) (gl : List String) :
    ∀ (acc : Dict V) (k : String),
      dget (gl.foldl (fun acc k =>
        match dget g k with
        | some v => dsetdefault acc k v
        | none => acc) acc) k =
      if k ∈ gl then oreD (dget acc k) (dget g k) else dget acc k := by
  induction gl with
  | nil => intro acc k; simp
  | cons a t ih =>
    intro acc k
    rw [List.foldl_cons]
    by_cases hak : a = k
    · subst hak
      cases hga : dget g a with
      | none =>
        dsimp only
        rw [ih acc a]
        by_cases hat : a ∈ t <;> simp [hat, hga]
      | some v =>
        dsimp only
        rw [ih (dsetdefault acc a v) a]
        by_cases hat : a ∈ t <;>
          simp [hat, hga, dget_dsetdefault]
    · have hka : ¬ k = a := fun hk => hak hk.symm
      cases hga : dget g a with
      | none =>
        dsimp only
        rw [ih acc k]
        simp [List.mem_cons, hka]
      | some v =>
        dsimp only
        rw [ih (dsetdefault acc a v) k]
        simp [List.mem_cons, hka, dget_dsetdefault, hak]

lemma dget_fold_set {V : Type} (g : Dict V) (gl : List String) :
    ∀ (acc : Dict V) (k : String),
      dget (gl.foldl (fun acc k =>
        match dget g k with
        | some v => dset acc k v
        | none => acc) acc) k =
      if k ∈ gl then oreD (dget g k) (dget acc k) else dget acc k := by
  induction gl with
  | nil => intro acc k; simp
  | cons a t ih =>
    intro acc k
    rw [List.foldl_cons]
    by_cases hak : a = k
    · subst hak
      cases hga : dget g a with
      | none =>
        dsimp only
        rw [ih acc a]
        by_cases hat : a ∈ t <;> simp [hat, hga]
      | some v =>
        dsimp only
        rw [ih (dset acc a v) a]
        by_cases hat : a ∈ t <;>
          simp [hat, hga, dget_dset_self]
    · have hka : ¬ k = a := fun hk => hak hk.symm
      cases hga : dget g a with
      | none =>
        dsimp only
        rw [ih acc k]
        simp [List.mem_cons, hka]
      | some v =>
        dsimp only
        rw [ih (dset acc a v) k]
        simp [List.mem_cons, hka, dget_dset_ne acc a v k hak]

lemma dget_applyGlobalsSetdefault {V : Type} (g sd : Dict V) (k : String) :
    dget (applyGlobalsSetdefault g sd) k =
      if k ∈ GLOBAL_KEYS then oreD (dget sd k) (dget g k) else dget sd k :=
  dget_fold_setdefault g GLOBAL_KEYS sd k

lemma dget_overwriteGlobals {V : Type} (g c : Dict V) (k : String) :
    dget (overwriteGlobals g c) k =
      if k ∈ GLOBAL_KEYS then oreD (dget g k) (dget c k) else dget c k :=
  dget_fold_set g GLOBAL_KEYS c k

lemma nodup_fold_setdefault {V : Type} (g : Dict V) (gl : List String) :
    ∀ (acc : Dict V), (dkeys acc).Nodup →
      (dkeys (gl.foldl (fun acc k =>
        match dget g k with
        | some v => dsetdefault acc k v
        | none => acc) acc)).Nodup := by
  induction gl with
  | nil => intro acc h; exact h
  | cons a t ih =>
    intro acc h
    rw [List.foldl_cons]
    cases hga : dget g a with
    | none => dsimp only; exact ih acc h
    | some v => dsimp only; exact ih _ (nodup_dkeys_dsetdefault acc a v h)

lemma nodup_fold_set {V : Type} (g : Dict V) (gl : List String) :
    ∀ (acc : Dict V), (dkeys acc).Nodup →
      (dkeys (gl.foldl (fun acc k =>
        match dget g k with
        | some v => dset acc k v
        | none => acc) acc)).Nodup := by
  induction gl with
  | nil => intro acc h; exact h
  | cons a t ih =>
    intro acc h
    rw [List.foldl_cons]
    cases hga : dget g a with
    | none => dsimp only; exact ih acc h
    | some v => dsimp only; exact ih _ (nodup_dkeys_dset acc a v h)

lemma nodup_applyGlobalsSetdefault {V : Type} (g sd : Dict V)
    (h : (dkeys sd).Nodup) :
    (dkeys (applyGlobalsSetdefault g sd)).Nodup :=
  nodup_fold_setdefault g GLOBAL_KEYS sd h

lemma nodup_overwriteGlobals {V : Type} (g c : Dict V)
    (h : (dkeys c).Nodup) : (dkeys (overwriteGlobals g c)).Nodup :=
  nodup_fold_set g GLOBAL_KEYS c h

lemma splitCal_go {V : Type} (cal : Dict V) :
    ∀ (acc : Dict V × Dict V) (k : String), (dkeys cal).Nodup →
      dget (cal.foldl splitStep acc).1 k =
        (if k ∈ GLOBAL_KEYS ∧ k ∈ dkeys cal then dget cal k
         else dget acc.1 k) ∧
      dget (cal.foldl splitStep acc).2 k =
        (if k ∉ GLOBAL_KEYS ∧ k ∈ dkeys cal then dget cal k
         else dget acc.2 k) := by
  induction cal with
  | nil => intro acc k _; simp [dkeys]
  | cons e t ih =>
    intro acc k hnd
    simp only [dkeys, List.map_cons, List.nodup_cons] at hnd
    rw [List.foldl_cons]
    have IH := ih (splitStep acc e) k hnd.2
    by_cases hek : e.1 = k
    · have hkt : k ∉ dkeys t := hek ▸ hnd.1
      have hmem : k ∈ dkeys (e :: t) := by simp [dkeys, hek.symm]
      have hgetk : dget (e :: t) k = some e.2 := by rw [dget, if_pos hek]
      by_cases heG : e.1 ∈ GLOBAL_KEYS
      · have hkG : k ∈ GLOBAL_KEYS := hek ▸ heG
        refine ⟨?_, ?_⟩
        · rw [IH.1, if_neg (by simp [hkt]), if_pos ⟨hkG, hmem⟩, hgetk]
          rw [splitStep, if_pos heG, ← hek]
          exact dget_dset_self acc.1 e.1 e.2
        · rw [IH.2, if_neg (by simp [hkt]), if_neg (by simp [hkG])]
          simp [splitStep, heG]
      · have hkG : k ∉ GLOBAL_KEYS := hek ▸ heG
        refine ⟨?_, ?_⟩
        · rw [IH.1, if_neg (by simp [hkt]), if_neg (by simp [hkG])]
          simp [splitStep, heG]
        · rw [IH.2, if_neg (by simp [hkt]), if_pos ⟨hkG, hmem⟩, hgetk]
          rw [splitStep, if_neg heG, ← hek]
          exact dget_dset_self acc.2 e.1 e.2
    · have hmem : k ∈ dkeys (e :: t) ↔ k ∈ dkeys t := by
        simp [dkeys, List.mem_cons]
        intro hk
        exact absurd hk.symm hek
      have hgetk : dget (e :: t) k = dget t k := by rw [dget, if_neg hek]
      have hacc1 : dget (splitStep acc e).1 k = dget acc.1 k := by
        rw [splitStep]
        split
        · exact dget_dset_ne acc.1 e.1 e.2 k hek
        · rfl
      have hacc2 : dget (splitStep acc e).2 k = dget acc.2 k := by
        rw [splitStep]
        split
        · rfl
        · exact dget_dset_ne acc.2 e.1 e.2 k hek
      refine ⟨?_, ?_⟩
      · rw [IH.1, hacc1, hgetk]
        by_cases hkt : k ∈ dkeys t <;> by_cases hkG : k ∈ GLOBAL_KEYS <;>
          simp [hkt, hkG, hmem]
      · rw [IH.2, hacc2, hgetk]
        by_cases hkt : k ∈ dkeys t <;> by_cases hkG : k ∈ GLOBAL_KEYS <;>
          simp [hkt, hkG, hmem]

lemma dget_splitCal_fst {V : Type} (cal : Dict V) (k : String)
    (h : (dkeys cal).Nodup) :
    dget (splitCal cal).1 k =
      if k ∈ GLOBAL_KEYS then dget cal k else none := by
  have hgo := (splitCal_go cal ([], []) k h).1
  rw [splitCal, hgo]
  by_cases hkG : k ∈ GLOBAL_KEYS <;> by_cases hkc : k ∈ dkeys cal <;>
    simp [hkG, hkc, dget, dget_eq_none_of_not_mem cal k]

lemma dget_splitCal_snd {V : Type} (cal : Dict V) (k : String)
    (h : (dkeys cal).Nodup) :
    dget (splitCal cal).2 k =
      if k ∈ GLOBAL_KEYS then none else dget cal k := by
  have hgo := (splitCal_go cal ([], []) k h).2
  rw [splitCal, hgo]
  by_cases hkG : k ∈ GLOBAL_KEYS <;> by_cases hkc : k ∈ dkeys cal <;>
    simp [hkG, hkc, dget, dget_eq_none_of_not_mem cal k]

lemma eqD_of_dget_eq {V : Type} (d1 d2 : Dict V)
    (h : ∀ k, dget d1 k = dget d2 k) : eqD d1 d2 :=
  ⟨fun k _ => (h k).symm, fun k _ => h k⟩

lemma validCals_get {V : Type} (cals : List (Dict V)) (h : validCals cals)
    (i : Nat) : (dkeys ((cals.get? i).getD [])).Nodup := by
  cases hg : cals.get? i with
  | none => simp [dkeys]
  | some c => exact h c (List.get?_mem hg)

lemma load_v3_eq {V : Type} (S : SettingsFile V) (cals : List (Dict V)) :
    load_v3 S cals =
      [overwriteGlobals S.globalSection
         (dupdate ((cals.get? 0).getD [])
           (applyGlobalsSetdefault S.globalSection
             ((dget S.slots "0").getD []))),
       dupdate ((cals.get? 1).getD []) ((dget S.slots "1").getD []),
       dupdate ((cals.get? 2).getD []) ((dget S.slots "2").getD []),
       dupdate ((cals.get? 3).getD []) ((dget S.slots "3").getD [])] := rfl

lemma save_eq {V : Type} (cals : List (Dict V)) :
    save cals =
      { version := 3
        globalSection := (splitCal ((cals.get? 0).getD [])).1
        slots := [("0", (splitCal ((cals.get? 0).getD [])).2),
                  ("1", (splitCal ((cals.get? 1).getD [])).2),
                  ("2", (splitCal ((cals.get? 2).getD [])).2),
                  ("3", (splitCal ((cals.get? 3).getD [])).2)] } := rfl


/-- C2 (amended): loading a well-formed v3 settings object `S` over
slot calibrations with unique keys whose non-global keys all occur in
the corresponding slot sections of `S`, then saving, produces a v3
object equal to `S` up to key ordering.  (Loading over the default
calibrations does *not* round-trip an `S` that omits default
calibration keys — see the counterexample.) -/
theorem settings_v3_round_trip {V : Type} (S : SettingsFile V)
    (cals : List (Dict V)) (hS : wellFormedV3 S) (hc : validCals cals)
    (hcov : covers cals S) :
    eqSettings (save (load_v3 S cals)) S := by
  obtain ⟨hver, hgnd, hgin, hgsub, hsnd, hskeys, hskeys', hsec⟩ := hS
  have hgkeys_none : ∀ k, k ∉ GLOBAL_KEYS →
      dget S.globalSection k = none := by
    intro k hk
    exact dget_eq_none_of_not_mem _ k (fun hmem => hk (hgsub k hmem))
  have hgkeys_some : ∀ k ∈ GLOBAL_KEYS, (dget S.globalSection k).isSome :=
    fun k hk => (dget_isSome_iff _ _).mpr (hgin k hk)
  have hsdfacts : ∀ (i : String),
      (dkeys ((dget S.slots i).getD [])).Nodup ∧
      (∀ k ∈ dkeys ((dget S.slots i).getD []), k ∉ GLOBAL_KEYS) := by
    intro i
    cases hg : dget S.slots i with
    | none => simp [dkeys]
    | some sd =>
      have hm := dget_eq_some_mem _ _ _ hg
      have h2 := hsec _ hm
      simpa using h2
  have hc0 := validCals_get cals hc 0
  have hc1 := validCals_get cals hc 1
  have hc2 := validCals_get cals hc 2
  have hc3 := validCals_get cals hc 3
  have hcov0 := hcov 0 (by decide)
  have hcov1 := hcov 1 (by decide)
  have hcov2 := hcov 2 (by decide)
  have hcov3 := hcov 3 (by decide)
  rw [show toString (0 : Nat) = "0" from rfl] at hcov0
  rw [show toString (1 : Nat) = "1" from rfl] at hcov1
  rw [show toString (2 : Nat) = "2" from rfl] at hcov2
  rw [show toString (3 : Nat) = "3" from rfl] at hcov3
  have hslot : ∀ (ci sdi : Dict V), (dkeys ci).Nodup → (dkeys sdi).Nodup →
      (∀ k ∈ dkeys sdi, k ∉ GLOBAL_KEYS) →
      (∀ k ∈ dkeys ci, k ∉ GLOBAL_KEYS → k ∈ dkeys sdi) →
      ∀ k, dget (splitCal (dupdate ci sdi)).2 k = dget sdi k := by
    intro ci sdi hcnd hsnd2 hnoG hcv k
    rw [dget_splitCal_snd _ k (nodup_dkeys_dupdate sdi ci hcnd)]
    by_cases hkG : k ∈ GLOBAL_KEYS
    · rw [if_pos hkG]
      exact (dget_eq_none_of_not_mem sdi k
        (fun hmem => hnoG k hmem hkG)).symm
    · rw [if_neg hkG, dget_dupdate sdi ci k hsnd2]
      cases hsd : dget sdi k with
      | some v => rfl
      | none =>
        simp only [oreD_none]
        apply dget_eq_none_of_not_mem
        intro hmem
        have hks := (dget_isSome_iff sdi k).mpr (hcv k hmem hkG)
        rw [hsd] at hks
        simp at hks
  have hnod0 : (dkeys (overwriteGlobals S.globalSection
      (dupdate ((cals.get? 0).getD [])
        (applyGlobalsSetdefault S.globalSection
          ((dget S.slots "0").getD []))))).Nodup :=
    nodup_overwriteGlobals _ _ (nodup_dkeys_dupdate _ _ hc0)
  have hslot0 : ∀ k,
      dget (splitCal (overwriteGlobals S.globalSection
        (dupdate ((cals.get? 0).getD [])
          (applyGlobalsSetdefault S.globalSection
            ((dget S.slots "0").getD []))))).2 k =
      dget ((dget S.slots "0").getD []) k := by
    intro k
    rw [dget_splitCal_snd _ k hnod0]
    by_cases hkG : k ∈ GLOBAL_KEYS
    · rw [if_pos hkG]
      exact (dget_eq_none_of_not_mem _ k
        (fun hmem => (hsdfacts "0").2 k hmem hkG)).symm
    · rw [if_neg hkG, dget_overwriteGlobals, if_neg hkG,
        dget_dupdate _ _ k (nodup_applyGlobalsSetdefault _ _
          (hsdfacts "0").1),
        dget_applyGlobalsSetdefault, if_neg hkG]
      cases hsd : dget ((dget S.slots "0").getD []) k with
      | some v => rfl
      | none =>
        simp only [oreD_none]
        apply dget_eq_none_of_not_mem
        intro hmem
        have hks := (dget_isSome_iff _ k).mpr (hcov0 k hmem hkG)
        rw [hsd] at hks
        simp at hks
  have hmain : ∀ (key : String) (P : Dict V),
      (∀ k, dget P k = dget ((dget S.slots key).getD []) k) →
      key ∈ dkeys S.slots →
      eqOptD (dget S.slots key) (some P) ∧
        eqOptD (some P) (dget S.slots key) := by
    intro key P hpt hmem
    cases hg : dget S.slots key with
    | none =>
      have hks := (dget_isSome_iff S.slots key).mpr hmem
      rw [hg] at hks
      simp at hks
    | some sdv =>
      rw [hg] at hpt
      simp only [Option.getD_some] at hpt
      constructor
      · show eqD sdv P
        exact eqD_of_dget_eq _ _ (fun k => (hpt k).symm)
      · show eqD P sdv
        exact eqD_of_dget_eq _ _ hpt
  have hm0 : "0" ∈ dkeys S.slots := hskeys' "0" (by decide)
  have hm1 : "1" ∈ dkeys S.slots := hskeys' "1" (by decide)
  have hm2 : "2" ∈ dkeys S.slots := hskeys' "2" (by decide)
  have hm3 : "3" ∈ dkeys S.slots := hskeys' "3" (by decide)
  have H0 := hmain "0" _ hslot0 hm0
  have H1 := hmain "1" _
    (hslot ((cals.get? 1).getD []) ((dget S.slots "1").getD [])
      hc1 (hsdfacts "1").1 (hsdfacts "1").2 hcov1) hm1
  have H2 := hmain "2" _
    (hslot ((cals.get? 2).getD []) ((dget S.slots "2").getD [])
      hc2 (hsdfacts "2").1 (hsdfacts "2").2 hcov2) hm2
  have H3 := hmain "3" _
    (hslot ((cals.get? 3).getD []) ((dget S.slots "3").getD [])
      hc3 (hsdfacts "3").1 (hsdfacts "3").2 hcov3) hm3
  rw [load_v3_eq, save_eq]
  simp only [List.get?_cons_zero, List.get?_cons_succ, Option.getD_some]
  refine ⟨hver.symm, ?_, ?_, ?_⟩
  · -- global section
    apply eqD_of_dget_eq
    intro k
    rw [dget_splitCal_fst _ k hnod0]
    by_cases hkG : k ∈ GLOBAL_KEYS
    · rw [if_pos hkG, dget_overwriteGlobals, if_pos hkG]
      have hs := hgkeys_some k hkG
      cases hg : dget S.globalSection k with
      | none => rw [hg] at hs; simp at hs
      | some v => rfl
    · rw [if_neg hkG, hgkeys_none k hkG]
  · -- slots, saved → S direction
    intro k hk
    have hk4 : k = "0" ∨ k = "1" ∨ k = "2" ∨ k = "3" := by
      simpa [dkeys] using hk
    rcases hk4 with rfl | rfl | rfl | rfl
    · exact H0.1
    · exact H1.1
    · exact H2.1
    · exact H3.1
  · -- slots, S → saved direction
    intro k hk
    have hk4 := hskeys k hk
    have hk4' : k = "0" ∨ k = "1" ∨ k = "2" ∨ k = "3" := by
      simpa using hk4
    rcases hk4' with rfl | rfl | rfl | rfl
    · exact H0.2
    · exact H1.2
    · exact H2.2
    · exact H3.2

/-- A well-formed v3 object (per the claim's conditions) with empty
slot sections. -/
def S_ce : SettingsFile CalVal :=
  { version := 3
    globalSection :=
      [("auto_connect", .b true), ("emulation_mode", .s "dsu"),
       ("trigger_bump_100_percent", .b true), ("minimize_to_tray", .b false),
       ("known_ble_devices", .emptyMap)]
    slots := [("0", []), ("1", []), ("2", []), ("3", [])] }

set_option maxRecDepth 8000 in
/-- C2 (counterexample): `S_ce` is well-formed exactly as the claim
demands (version 3, global section carrying the global key set, slot
sections free of global keys), yet loading it into the default slot
calibrations and saving does not reproduce it — the defaults'
calibration keys, absent from `S_ce`, reappear in the saved slots. -/
theorem settings_round_trip_fails_on_defaults :
    wellFormedV3 S_ce ∧ validCals defaultCals ∧
      ¬ eqSettings (save (load_v3 S_ce defaultCals)) S_ce := by decide

/-- The non-global part of the modelled default calibration. -/
def DEFAULT_NONGLOBAL : Dict CalVal :=
  [("left_stick_center_x", .i 128), ("left_stick_center_y", .i 128),
   ("left_stick_range_x", .i 100), ("left_stick_range_y", .i 100),
   ("right_stick_center_x", .i 128), ("right_stick_center_y", .i 128),
   ("right_stick_range_x", .i 100), ("right_stick_range_y", .i 100),
   ("trigger_left_base", .i 0), ("trigger_left_bump", .i 128),
   ("trigger_left_max", .i 255),
   ("trigger_right_base", .i 0), ("trigger_right_bump", .i 128),
   ("trigger_right_max", .i 255)]

/-- A well-formed v3 object whose slot sections cover the default
calibration keys. -/
def S_w : SettingsFile CalVal :=
  { version := 3
    globalSection :=
      [("auto_connect", .b false), ("emulation_mode", .s "xbox360"),
       ("trigger_bump_100_percent", .b false),
       ("minimize_to_tray", .b false), ("known_ble_devices", .emptyMap)]
    slots := [("0", DEFAULT_NONGLOBAL), ("1", DEFAULT_NONGLOBAL),
              ("2", DEFAULT_NONGLOBAL), ("3", DEFAULT_NONGLOBAL)] }

set_option maxRecDepth 8000 in
/-- C2 (witness for the amended theorem): `S_w` covers the default
calibration keys, and load-then-save over the defaults reproduces it. -/
theorem settings_v3_round_trip_witness :
    eqSettings (save (load_v3 S_w defaultCals)) S_w :=
  settings_v3_round_trip S_w defaultCals (by decide) (by decide) (by decide)

/-- The v1 scenario input `{"left_bump": 180, "bump_100_percent": true}`. -/
def v1_input : Dict CalVal :=
  [("left_bump", .i 180), ("bump_100_percent", .b true)]

/-- The v3 object produced by loading the v1 scenario input over the
default calibrations and saving. -/
def savedAfterV1 : SettingsFile CalVal := save (load_v1 v1_input defaultCals)

set_option maxRecDepth 8000 in
/-- C3: loading the v1 file `{"left_bump": 180, "bump_100_percent":
true}` and saving yields a v3 object where slot "0" has
`trigger_left_bump = 180`, the global section has
`trigger_bump_100_percent = true`, and no old-style key (`left_base`,
`left_bump`, …, `bump_100_percent`) appears in the global section or in
any slot section. -/
theorem settings_v1_migration :
    dget ((dget savedAfterV1.slots "0").getD []) "trigger_left_bump"
      = some (.i 180) ∧
    dget savedAfterV1.globalSection "trigger_bump_100_percent"
      = some (.b true) ∧
    savedAfterV1.version = 3 ∧
    (∀ km ∈ KEY_MIGRATION,
      dget savedAfterV1.globalSection km.1 = none ∧
      ∀ e ∈ savedAfterV1.slots, dget e.2 km.1 = none) := by decide

end GC
